import Mathlib

/-!
The gin response writer: embedding and verified properties.

A shallow embedding of `response_writer.go`: the `responseWriter` adapter that
wraps an `http.ResponseWriter` and records the status code and the number of
body bytes written.

* Go `int` is embedded as `Int`; the only arithmetic in the file, `r.size += n`,
  is reduced to the 64-bit two's-complement range by `wrapInt`.
* The wrapped `http.ResponseWriter` is external to the file. It is embedded as a
  `Delegate`: the list of calls it has received, which optional interfaces its
  dynamic type implements, and the replies it gives (as functions of the calls
  received before).
* A method with a pointer receiver becomes a function returning the new
  adapter state; a method that can panic on a failed type assertion returns an
  `Except Panic` value next to the state, because the fields assigned before
  the panic keep their new values.
-/

namespace Gin

/-! Section: Go integers -/

/-- Width of the Go `int` type on 64-bit targets. -/
def intBits : Nat := 64

/-- Two's-complement reduction of a mathematical integer to the Go `int` range. -/
def wrapInt (x : Int) : Int :=
  (x + 2 ^ (intBits - 1)) % 2 ^ intBits - 2 ^ (intBits - 1)

/-- The values a Go `int` can hold. -/
def inIntRange (x : Int) : Prop :=
  -(2 ^ (intBits - 1)) ≤ x ∧ x < 2 ^ (intBits - 1)

instance (x : Int) : Decidable (inIntRange x) := by
  unfold inIntRange; infer_instance

/-! Section: The wrapped `http.ResponseWriter` -/

/-- A Go `error` value; `none` is `nil`. -/
abbrev Error := Option String

/-- Handle of a hijacked `net.Conn`. -/
abbrev Conn := Nat

/-- Handle of a `*bufio.ReadWriter`. -/
abbrev ReadWriter := Nat

/-- Handle of a `<-chan bool`. -/
abbrev Chan := Nat

/-- The bytes of a string, as in the conversion `[]byte(s)`. -/
def bytesOf (s : String) : List UInt8 := s.toUTF8.data.toList

/-- A method call received by the wrapped writer. -/
inductive Call where
  | WriteHeader (code : Int)
  | Write (data : List UInt8)
  | WriteString (s : String)
  | Hijack
  | CloseNotify
  | Flush
  deriving DecidableEq, Repr

/-- The wrapped `http.ResponseWriter` value. `calls` is the history of calls it
has received, oldest first. `isHijacker`, `isFlusher`, `isCloseNotifier` and
`isStringWriter` say whether its dynamic type implements `http.Hijacker`,
`http.Flusher`, `http.CloseNotifier` and `io.StringWriter`. The remaining
fields are its replies, which may depend on everything it has received so far. -/
structure Delegate where
  calls : List Call
  isStringWriter : Bool
  isHijacker : Bool
  isFlusher : Bool
  isCloseNotifier : Bool
  onWrite : List Call → List UInt8 → Int × Error
  onWriteString : List Call → String → Int × Error
  onHijack : List Call → Conn × ReadWriter × Error
  onCloseNotify : List Call → Chan

namespace Delegate

/-- Method `WriteHeader(code)` of the wrapped writer. -/
def WriteHeader (d : Delegate) (code : Int) : Delegate :=
  { d with calls := d.calls ++ [Call.WriteHeader code] }

/-- Method `Write(data)` of the wrapped writer: its reply and its next state. -/
def Write (d : Delegate) (data : List UInt8) : (Int × Error) × Delegate :=
  (d.onWrite d.calls data, { d with calls := d.calls ++ [Call.Write data] })

/-- The call `io.WriteString(d, s)`: a writer that implements `io.StringWriter`
receives `WriteString(s)`, any other writer receives `Write([]byte(s))`. -/
def WriteString (d : Delegate) (s : String) : (Int × Error) × Delegate :=
  if d.isStringWriter then
    (d.onWriteString d.calls s, { d with calls := d.calls ++ [Call.WriteString s] })
  else d.Write (bytesOf s)

/-- Method `Hijack()` of a writer that implements `http.Hijacker`. -/
def Hijack (d : Delegate) : (Conn × ReadWriter × Error) × Delegate :=
  (d.onHijack d.calls, { d with calls := d.calls ++ [Call.Hijack] })

/-- Method `CloseNotify()` of a writer that implements `http.CloseNotifier`. -/
def CloseNotify (d : Delegate) : Chan × Delegate :=
  (d.onCloseNotify d.calls, { d with calls := d.calls ++ [Call.CloseNotify] })

/-- Method `Flush()` of a writer that implements `http.Flusher`. -/
def Flush (d : Delegate) : Delegate :=
  { d with calls := d.calls ++ [Call.Flush] }

end Delegate

/-- A run-time panic raised by a failed interface type assertion. -/
inductive Panic where
  | notHijacker
  | notCloseNotifier
  | notFlusher
  deriving DecidableEq, Repr

/-! Section: `response_writer.go` -/

/-- Constant `noWritten`. -/
def noWritten : Int := -1

/-- Constant `defaultStatus`, which is `http.StatusOK`. -/
def defaultStatus : Int := 200

/-- The struct `responseWriter`: the embedded `http.ResponseWriter` and the two
bookkeeping fields. -/
structure responseWriter where
  ResponseWriter : Delegate
  size : Int
  status : Int

namespace responseWriter

/-- Method `reset`. -/
def reset (_r : responseWriter) (writer : Delegate) : responseWriter :=
  { ResponseWriter := writer, size := noWritten, status := defaultStatus }

/-- Method `Status`. -/
def Status (r : responseWriter) : Int := r.status

/-- Method `Size`. -/
def Size (r : responseWriter) : Int := r.size

/-- Method `Written`. -/
def Written (r : responseWriter) : Bool := r.size != noWritten

/-- Method `WriteHeader`. The branch on `r.Written()` only holds a debug print
and has no effect on the state. -/
def WriteHeader (r : responseWriter) (code : Int) : responseWriter :=
  if code > 0 ∧ r.status ≠ code then
    { r with status := code }
  else r

/-- Method `WriteHeaderNow`. -/
def WriteHeaderNow (r : responseWriter) : responseWriter :=
  if !r.Written then
    { r with size := 0, ResponseWriter := r.ResponseWriter.WriteHeader r.status }
  else r

/-- Method `Write`: the returned `(n, err)` and the new state. -/
def Write (r : responseWriter) (data : List UInt8) : (Int × Error) × responseWriter :=
  let r1 := r.WriteHeaderNow
  let res := r1.ResponseWriter.Write data
  (res.1, { r1 with ResponseWriter := res.2, size := wrapInt (r1.size + res.1.1) })

/-- Method `WriteString`: the returned `(n, err)` and the new state. -/
def WriteString (r : responseWriter) (s : String) : (Int × Error) × responseWriter :=
  let r1 := r.WriteHeaderNow
  let res := r1.ResponseWriter.WriteString s
  (res.1, { r1 with ResponseWriter := res.2, size := wrapInt (r1.size + res.1.1) })

/-- Method `Hijack`. The size is normalised before the type assertion, so the
new size is kept when the assertion panics. -/
def Hijack (r : responseWriter) :
    Except Panic (Conn × ReadWriter × Error) × responseWriter :=
  let r1 := if r.size < 0 then { r with size := 0 } else r
  if r1.ResponseWriter.isHijacker then
    let res := r1.ResponseWriter.Hijack
    (Except.ok res.1, { r1 with ResponseWriter := res.2 })
  else (Except.error Panic.notHijacker, r1)

/-- Method `CloseNotify`. -/
def CloseNotify (r : responseWriter) : Except Panic Chan × responseWriter :=
  if r.ResponseWriter.isCloseNotifier then
    let res := r.ResponseWriter.CloseNotify
    (Except.ok res.1, { r with ResponseWriter := res.2 })
  else (Except.error Panic.notCloseNotifier, r)

/-- Method `Flush`. The headers are committed before the type assertion, so the
commit is kept when the assertion panics. -/
def Flush (r : responseWriter) : Except Panic Unit × responseWriter :=
  let r1 := r.WriteHeaderNow
  if r1.ResponseWriter.isFlusher then
    (Except.ok (), { r1 with ResponseWriter := r1.ResponseWriter.Flush })
  else (Except.error Panic.notFlusher, r1)

end responseWriter

/-! Section: Sequences of body writes -/

/-- One body write made by a handler: `Write(data)` or `WriteString(s)`. -/
inductive BodyWrite where
  | Write (data : List UInt8)
  | WriteString (s : String)
  deriving DecidableEq, Repr

/-- Perform one body write: the returned `(n, err)` and the new state. -/
def BodyWrite.apply (r : responseWriter) : BodyWrite → (Int × Error) × responseWriter
  | BodyWrite.Write data => r.Write data
  | BodyWrite.WriteString s => r.WriteString s

/-- Perform the body writes in order: the returned pairs and the final state. -/
def writeAll (r : responseWriter) : List BodyWrite → List (Int × Error) × responseWriter
  | [] => ([], r)
  | w :: ws =>
    ((w.apply r).1 :: (writeAll (w.apply r).2 ws).1, (writeAll (w.apply r).2 ws).2)

/-- Whether a call ended in a panic. -/
def panicked {α : Type} : Except Panic α → Bool
  | Except.error _ => true
  | Except.ok _ => false

/-! Section: Sequences of adapter operations -/

/-- One operation on the adapter other than `reset`. -/
inductive Op where
  | WriteHeader (code : Int)
  | WriteHeaderNow
  | Write (data : List UInt8)
  | WriteString (s : String)
  | Flush
  | Hijack
  | CloseNotify
  deriving DecidableEq, Repr

/-- The adapter state after one operation. A panic of `Flush`, `Hijack` or
`CloseNotify` leaves the state it had reached, and a caller that recovers can go
on using the adapter. -/
def Op.apply (r : responseWriter) : Op → responseWriter
  | Op.WriteHeader code => r.WriteHeader code
  | Op.WriteHeaderNow => r.WriteHeaderNow
  | Op.Write data => (r.Write data).2
  | Op.WriteString s => (r.WriteString s).2
  | Op.Flush => r.Flush.2
  | Op.Hijack => r.Hijack.2
  | Op.CloseNotify => r.CloseNotify.2

/-- The byte count the wrapped writer returns during one operation, when the
operation is a body write. -/
def Op.count (r : responseWriter) : Op → Option Int
  | Op.Write data => some (r.Write data).1.1
  | Op.WriteString s => some (r.WriteString s).1.1
  | _ => none

/-- The adapter state after the operations, performed in order. -/
def run (r : responseWriter) : List Op → responseWriter
  | [] => r
  | op :: ops => run (op.apply r) ops

/-- The byte counts the wrapped writer returns during the operations, in order. -/
def counts (r : responseWriter) : List Op → List Int
  | [] => []
  | op :: ops => (op.count r).toList ++ counts (op.apply r) ops

/-- Whether a call received by the wrapped writer is a `WriteHeader`. -/
def Call.isWriteHeader : Call → Bool
  | Call.WriteHeader _ => true
  | _ => false

/-- Number of `WriteHeader` calls in a call history. -/
def headerCalls (cs : List Call) : Nat := cs.countP Call.isWriteHeader

/-- The calls the wrapped writer has received since `reset(d)`. -/
def sinceReset (d : Delegate) (r : responseWriter) : List Call :=
  r.ResponseWriter.calls.drop d.calls.length

/-! Section: Sample delegates and states -/

/-- A writer implementing every optional interface that accepts each payload in
full and never fails. -/
def fullDelegate : Delegate where
  calls := []
  isStringWriter := true
  isHijacker := true
  isFlusher := true
  isCloseNotifier := true
  onWrite := fun _ data => (data.length, none)
  onWriteString := fun _ s => (s.utf8ByteSize, none)
  onHijack := fun _ => (1, 1, none)
  onCloseNotify := fun _ => 1

/-- A writer with none of the optional interfaces that accepts each payload in
full and never fails. -/
def plainDelegate : Delegate :=
  { fullDelegate with
    isStringWriter := false, isHijacker := false, isFlusher := false,
    isCloseNotifier := false }

/-- A writer whose first `Write` fails and reports `-1` bytes; later writes are
accepted in full. -/
def faultyDelegate : Delegate :=
  { fullDelegate with
    onWrite := fun calls data =>
      if calls.length < 2 then (-1, some "write failed") else (data.length, none) }

/-- A writer that reports `2^63 - 1` bytes for its first two writes and `1` byte
for every later one. -/
def hugeDelegate : Delegate :=
  { fullDelegate with
    onWrite := fun calls _ =>
      if calls.length < 3 then (9223372036854775807, none) else (1, none) }

/-- The zero value of the struct followed by `reset(d)`: the adapter at the
start of a request. -/
def fresh (d : Delegate) : responseWriter :=
  responseWriter.reset { ResponseWriter := d, size := 0, status := 0 } d

/-- The payload "hello". -/
def hello : List UInt8 := [104, 101, 108, 108, 111]

/-- The adapter after a request wrote "hello" through `fullDelegate`. -/
def afterHello : responseWriter := ((fresh fullDelegate).Write hello).2

/-- The last code of the list that is `> 0`, or 200 when there is none. -/
def lastValidCode (codes : List Int) : Int :=
  ((codes.filter (fun c => decide (c > 0))).getLast?).getD 200

/-- Bookkeeping relation between an adapter state and what happened since the
reset: `base` is the call history the wrapped writer had at the reset, `S` the
sum of the byte counts it has reported since, and `hj` whether `Hijack` has been
called on the adapter since. -/
def Inv (base : List Call) (S : Int) (hj : Bool) (r : responseWriter) : Prop :=
  ∃ new, r.ResponseWriter.calls = base ++ new ∧
    ((r.size = -1 ∧ headerCalls new = 0 ∧ S = 0 ∧ hj = false) ∨
     (0 ≤ r.size ∧ r.size = S ∧ headerCalls new ≤ 1 ∧ (headerCalls new = 1 ∨ hj = true)))

/-! Section: Lemmas -/

theorem foldl_WriteHeader (codes : List Int) (r : responseWriter) :
    (codes.foldl responseWriter.WriteHeader r).ResponseWriter = r.ResponseWriter ∧
    (codes.foldl responseWriter.WriteHeader r).size = r.size ∧
    (codes.foldl responseWriter.WriteHeader r).status =
      ((codes.filter (fun c => decide (c > 0))).getLast?).getD r.status := by
  induction codes generalizing r with
  | nil => simp
  | cons c cs ih =>
    obtain ⟨hd, hs, hst⟩ := ih (r.WriteHeader c)
    simp only [List.foldl_cons]
    refine ⟨?_, ?_, ?_⟩
    · rw [hd]; unfold responseWriter.WriteHeader; split <;> rfl
    · rw [hs]; unfold responseWriter.WriteHeader; split <;> rfl
    · rw [hst]
      by_cases hc : c > 0
      · have hstat : (r.WriteHeader c).status = c := by
          unfold responseWriter.WriteHeader
          by_cases he : r.status = c
          · simp [he]
          · simp [hc, he]
        simp [List.filter_cons, hc, hstat, List.getLast?_cons]
      · have hstat : (r.WriteHeader c).status = r.status := by
          unfold responseWriter.WriteHeader
          simp [hc]
        simp [List.filter_cons, hc, hstat]

theorem wrapInt_of_inIntRange (x : Int) (h : inIntRange x) : wrapInt x = x := by
  unfold inIntRange at h
  unfold wrapInt
  simp only [intBits] at *
  norm_num at *
  omega

theorem WriteHeaderNow_size (r : responseWriter) :
    r.WriteHeaderNow.size = if r.size = noWritten then 0 else r.size := by
  unfold responseWriter.WriteHeaderNow responseWriter.Written
  by_cases h : r.size = noWritten <;> simp [h]

theorem WriteHeaderNow_Written (r : responseWriter) : r.WriteHeaderNow.Written = true := by
  unfold responseWriter.WriteHeaderNow
  cases h : r.Written
  · simp [responseWriter.Written, noWritten]
  · simpa using h

theorem WriteHeaderNow_of_Written (r : responseWriter) (h : r.Written = true) :
    r.WriteHeaderNow = r := by
  unfold responseWriter.WriteHeaderNow
  simp [h]

theorem apply_size (w : BodyWrite) (r : responseWriter) :
    (w.apply r).2.size = wrapInt (r.WriteHeaderNow.size + (w.apply r).1.1) := by
  cases w <;> rfl

/-- From a committed state with a non-negative size, body writes that report
non-negative counts without leaving the `int` range add up exactly. -/
theorem writeAll_size_committed (ws : List BodyWrite) (r : responseWriter)
    (hr : 0 ≤ r.size)
    (hpos : ∀ p ∈ (writeAll r ws).1, 0 ≤ p.1)
    (hsum : r.size + ((writeAll r ws).1.map Prod.fst).sum < 2 ^ 63) :
    (writeAll r ws).2.size = r.size + ((writeAll r ws).1.map Prod.fst).sum := by
  induction ws generalizing r with
  | nil => simp [writeAll]
  | cons w ws ih =>
    simp only [writeAll, List.map_cons, List.sum_cons, List.mem_cons, forall_eq_or_imp]
      at hpos hsum ⊢
    obtain ⟨hn, hrest⟩ := hpos
    have hrestsum : 0 ≤ ((writeAll (w.apply r).2 ws).1.map Prod.fst).sum := by
      apply List.sum_nonneg
      intro x hx
      obtain ⟨p, hp, rfl⟩ := List.mem_map.1 hx
      exact hrest p hp
    have hnow : r.WriteHeaderNow.size = r.size := by
      rw [WriteHeaderNow_size]
      have : r.size ≠ noWritten := by unfold noWritten; omega
      simp [this]
    have hsz : (w.apply r).2.size = r.size + (w.apply r).1.1 := by
      rw [apply_size, hnow]
      apply wrapInt_of_inIntRange
      unfold inIntRange intBits
      norm_num
      constructor <;> omega
    have := ih (w.apply r).2 (by rw [hsz]; omega) hrest (by rw [hsz]; omega)
    rw [this, hsz]; ring

theorem headerCalls_append (a b : List Call) :
    headerCalls (a ++ b) = headerCalls a + headerCalls b := by
  simp [headerCalls, List.countP_append]

theorem WriteHeader_frame (r : responseWriter) (code : Int) :
    (r.WriteHeader code).size = r.size ∧
    (r.WriteHeader code).ResponseWriter = r.ResponseWriter := by
  unfold responseWriter.WriteHeader
  split <;> exact ⟨rfl, rfl⟩

theorem WriteHeaderNow_calls (r : responseWriter) :
    r.WriteHeaderNow.ResponseWriter.calls = r.ResponseWriter.calls ++
      (if r.size = noWritten then [Call.WriteHeader r.status] else []) := by
  unfold responseWriter.WriteHeaderNow responseWriter.Written
  by_cases h : r.size = noWritten <;> simp [h, Delegate.WriteHeader]

theorem WriteHeaderNow_status (r : responseWriter) :
    r.WriteHeaderNow.status = r.status := by
  unfold responseWriter.WriteHeaderNow
  split <;> rfl

theorem Hijack_size (r : responseWriter) :
    r.Hijack.2.size = if r.size < 0 then 0 else r.size := by
  unfold responseWriter.Hijack
  by_cases hs : r.size < 0 <;> cases hh : r.ResponseWriter.isHijacker <;> simp [hs, hh]

theorem Hijack_calls (r : responseWriter) :
    r.Hijack.2.ResponseWriter.calls = r.ResponseWriter.calls ++
      (if r.ResponseWriter.isHijacker then [Call.Hijack] else []) := by
  unfold responseWriter.Hijack
  by_cases hs : r.size < 0 <;> cases hh : r.ResponseWriter.isHijacker <;>
    simp [hs, hh, Delegate.Hijack]

theorem Hijack_status (r : responseWriter) : r.Hijack.2.status = r.status := by
  unfold responseWriter.Hijack
  by_cases hs : r.size < 0 <;> cases hh : r.ResponseWriter.isHijacker <;> simp [hs, hh]

theorem Flush_size (r : responseWriter) : r.Flush.2.size = r.WriteHeaderNow.size := by
  unfold responseWriter.Flush
  cases hh : r.WriteHeaderNow.ResponseWriter.isFlusher <;> simp [hh]

theorem WriteHeaderNow_isFlusher (r : responseWriter) :
    r.WriteHeaderNow.ResponseWriter.isFlusher = r.ResponseWriter.isFlusher := by
  unfold responseWriter.WriteHeaderNow
  cases r.Written <;> simp [Delegate.WriteHeader]

theorem Flush_calls (r : responseWriter) :
    r.Flush.2.ResponseWriter.calls = r.WriteHeaderNow.ResponseWriter.calls ++
      (if r.ResponseWriter.isFlusher then [Call.Flush] else []) := by
  have hf := WriteHeaderNow_isFlusher r
  unfold responseWriter.Flush
  cases hh : r.ResponseWriter.isFlusher <;> simp [hf, hh, Delegate.Flush]

theorem CloseNotify_frame (r : responseWriter) :
    r.CloseNotify.2.size = r.size ∧
    r.CloseNotify.2.ResponseWriter.calls = r.ResponseWriter.calls ++
      (if r.ResponseWriter.isCloseNotifier then [Call.CloseNotify] else []) := by
  unfold responseWriter.CloseNotify
  cases hh : r.ResponseWriter.isCloseNotifier <;> simp [hh, Delegate.CloseNotify]

theorem Write_size (r : responseWriter) (data : List UInt8) :
    (r.Write data).2.size = wrapInt (r.WriteHeaderNow.size + (r.Write data).1.1) := rfl

theorem Write_calls (r : responseWriter) (data : List UInt8) :
    (r.Write data).2.ResponseWriter.calls =
      r.WriteHeaderNow.ResponseWriter.calls ++ [Call.Write data] := rfl

theorem WriteString_size (r : responseWriter) (s : String) :
    (r.WriteString s).2.size = wrapInt (r.WriteHeaderNow.size + (r.WriteString s).1.1) := rfl

theorem WriteHeaderNow_isStringWriter (r : responseWriter) :
    r.WriteHeaderNow.ResponseWriter.isStringWriter = r.ResponseWriter.isStringWriter := by
  unfold responseWriter.WriteHeaderNow
  cases r.Written <;> simp [Delegate.WriteHeader]

/-- The call the wrapped writer receives from `io.WriteString(d, s)`. -/
theorem WriteString_calls (r : responseWriter) (s : String) :
    (r.WriteString s).2.ResponseWriter.calls =
      r.WriteHeaderNow.ResponseWriter.calls ++
        [if r.ResponseWriter.isStringWriter then Call.WriteString s
          else Call.Write (bytesOf s)] := by
  have hw := WriteHeaderNow_isStringWriter r
  unfold responseWriter.WriteString Delegate.WriteString
  cases hh : r.ResponseWriter.isStringWriter <;> simp [hw, hh, Delegate.Write]

/-- Every operation appends to the history of the wrapped writer; the size
becomes `size'` and `k` further `WriteHeader` calls are received, as listed. -/
theorem Op.apply_effect (r : responseWriter) (op : Op) :
    ∃ extra, (op.apply r).ResponseWriter.calls = r.ResponseWriter.calls ++ extra ∧
      headerCalls extra =
        (match op with
          | Op.WriteHeader _ => 0
          | Op.Hijack => 0
          | Op.CloseNotify => 0
          | _ => if r.size = -1 then 1 else 0) ∧
      (op.apply r).size =
        (match op with
          | Op.WriteHeader _ => r.size
          | Op.CloseNotify => r.size
          | Op.Hijack => if r.size < 0 then 0 else r.size
          | Op.WriteHeaderNow => if r.size = -1 then 0 else r.size
          | Op.Flush => if r.size = -1 then 0 else r.size
          | Op.Write data =>
              wrapInt ((if r.size = -1 then 0 else r.size) + (r.Write data).1.1)
          | Op.WriteString s =>
              wrapInt ((if r.size = -1 then 0 else r.size) + (r.WriteString s).1.1)) := by
  cases op with
  | WriteHeader code =>
    exact ⟨[], by simp [Op.apply, (WriteHeader_frame r code).2], by simp [headerCalls],
      (WriteHeader_frame r code).1⟩
  | WriteHeaderNow =>
    refine ⟨_, WriteHeaderNow_calls r, ?_, by simp [Op.apply, WriteHeaderNow_size, noWritten]⟩
    by_cases h : r.size = -1 <;> simp [h, noWritten, headerCalls, Call.isWriteHeader]
  | Write data =>
    refine ⟨_, by simp only [Op.apply, Write_calls, WriteHeaderNow_calls, List.append_assoc]; rfl,
      ?_, by simp [Op.apply, Write_size, WriteHeaderNow_size, noWritten]⟩
    by_cases h : r.size = -1 <;> simp [h, noWritten, headerCalls, Call.isWriteHeader]
  | WriteString s =>
    refine ⟨_, by simp only [Op.apply, WriteString_calls, WriteHeaderNow_calls,
        List.append_assoc]; rfl,
      ?_, by simp [Op.apply, WriteString_size, WriteHeaderNow_size, noWritten]⟩
    by_cases h : r.size = -1 <;> cases hw : r.ResponseWriter.isStringWriter <;>
      simp [h, hw, noWritten, headerCalls, Call.isWriteHeader]
  | Flush =>
    refine ⟨_, by simp only [Op.apply, Flush_calls, WriteHeaderNow_calls, List.append_assoc]; rfl,
      ?_, by simp [Op.apply, Flush_size, WriteHeaderNow_size, noWritten]⟩
    by_cases h : r.size = -1 <;> cases hf : r.ResponseWriter.isFlusher <;>
      simp [h, hf, noWritten, headerCalls, Call.isWriteHeader]
  | Hijack =>
    refine ⟨_, Hijack_calls r, ?_, Hijack_size r⟩
    cases hf : r.ResponseWriter.isHijacker <;> simp [hf, headerCalls, Call.isWriteHeader]
  | CloseNotify =>
    refine ⟨_, (CloseNotify_frame r).2, ?_, (CloseNotify_frame r).1⟩
    cases hf : r.ResponseWriter.isCloseNotifier <;> simp [hf, headerCalls, Call.isWriteHeader]

theorem wrapInt_of_nonneg (x : Int) (h0 : 0 ≤ x) (h1 : x < 2 ^ 63) : wrapInt x = x := by
  apply wrapInt_of_inIntRange
  unfold inIntRange intBits
  norm_num
  constructor <;> omega

/-- Two non-negative Go `int` values never add up, after wrapping, to `-1`. -/
theorem wrapInt_ne_sentinel (b n : Int) {z : Int} (hb0 : 0 ≤ b) (hb1 : b < 2 ^ 63)
    (hn0 : 0 ≤ n) (hn1 : n < 2 ^ (intBits - 1)) (hz : z = wrapInt (b + n)) : z ≠ -1 := by
  subst hz
  unfold wrapInt
  simp only [intBits] at *
  norm_num at *
  omega

theorem run_append (r : responseWriter) (a b : List Op) :
    run r (a ++ b) = run (run r a) b := by
  induction a generalizing r with
  | nil => rfl
  | cons op a ih => simp [run, ih]

theorem counts_append (r : responseWriter) (a b : List Op) :
    counts r (a ++ b) = counts r a ++ counts (run r a) b := by
  induction a generalizing r with
  | nil => rfl
  | cons op a ih => simp [run, counts, ih]

theorem Inv_reset (r0 : responseWriter) (d : Delegate) :
    Inv d.calls 0 false (r0.reset d) :=
  ⟨[], by simp [responseWriter.reset], Or.inl ⟨rfl, rfl, rfl, rfl⟩⟩

theorem Inv_step (base : List Call) (S : Int) (hj : Bool) (r : responseWriter) (op : Op)
    (h : Inv base S hj r)
    (hc : ∀ n, op.count r = some n → 0 ≤ n ∧ S + n < 2 ^ 63) :
    Inv base (S + (op.count r).getD 0) (hj || decide (op = Op.Hijack)) (op.apply r) := by
  obtain ⟨new, hcalls, hd⟩ := h
  obtain ⟨extra, hex, hk, hsz⟩ := Op.apply_effect r op
  refine ⟨new ++ extra, by rw [hex, hcalls, List.append_assoc], ?_⟩
  rw [headerCalls_append, hk, hsz]
  cases op with
  | WriteHeader code =>
    rcases hd with ⟨h1, h2, h3, h4⟩ | ⟨h1, h2, h3, h4⟩
    · left; simp [Op.count, h1, h2, h3, h4]
    · right; subst h2; simp [Op.count, h1, h3, h4]
  | CloseNotify =>
    rcases hd with ⟨h1, h2, h3, h4⟩ | ⟨h1, h2, h3, h4⟩
    · left; simp [Op.count, h1, h2, h3, h4]
    · right; subst h2; simp [Op.count, h1, h3, h4]
  | Hijack =>
    rcases hd with ⟨h1, h2, h3, h4⟩ | ⟨h1, h2, h3, h4⟩
    · right; simp [Op.count, h1, h2, h3]
    · right
      subst h2
      have hlt : ¬ r.size < 0 := by omega
      simp [Op.count, hlt, h1, h3]
  | WriteHeaderNow =>
    rcases hd with ⟨h1, h2, h3, h4⟩ | ⟨h1, h2, h3, h4⟩
    · right; simp [Op.count, h1, h2, h3]
    · right
      subst h2
      have hne : r.size ≠ -1 := by omega
      simp [Op.count, hne, h1, h3, h4]
  | Flush =>
    rcases hd with ⟨h1, h2, h3, h4⟩ | ⟨h1, h2, h3, h4⟩
    · right; simp [Op.count, h1, h2, h3]
    · right
      subst h2
      have hne : r.size ≠ -1 := by omega
      simp [Op.count, hne, h1, h3, h4]
  | Write data =>
    obtain ⟨hn0, hn1⟩ := hc _ rfl
    rcases hd with ⟨h1, h2, h3, h4⟩ | ⟨h1, h2, h3, h4⟩
    · right
      subst h3
      simp only [zero_add] at hn1
      simp [Op.count, h1, h2, wrapInt_of_nonneg _ hn0 hn1, hn0]
    · right
      subst h2
      have hne : r.size ≠ -1 := by omega
      have hw : wrapInt (r.size + (r.Write data).1.1) = r.size + (r.Write data).1.1 :=
        wrapInt_of_nonneg _ (by omega) (by omega)
      simp only [Op.count, Option.getD_some, hne, if_false, hw, add_zero]
      exact ⟨by omega, trivial, h3, by simpa using h4⟩
  | WriteString s =>
    obtain ⟨hn0, hn1⟩ := hc _ rfl
    rcases hd with ⟨h1, h2, h3, h4⟩ | ⟨h1, h2, h3, h4⟩
    · right
      subst h3
      simp only [zero_add] at hn1
      simp [Op.count, h1, h2, wrapInt_of_nonneg _ hn0 hn1, hn0]
    · right
      subst h2
      have hne : r.size ≠ -1 := by omega
      have hw : wrapInt (r.size + (r.WriteString s).1.1) = r.size + (r.WriteString s).1.1 :=
        wrapInt_of_nonneg _ (by omega) (by omega)
      simp only [Op.count, Option.getD_some, hne, if_false, hw, add_zero]
      exact ⟨by omega, trivial, h3, by simpa using h4⟩

theorem counts_sum_nonneg (r : responseWriter) (ops : List Op)
    (hpos : ∀ n ∈ counts r ops, 0 ≤ n) : 0 ≤ (counts r ops).sum :=
  List.sum_nonneg hpos

theorem Inv_run (base : List Call) (ops : List Op) (S : Int) (hj : Bool)
    (r : responseWriter) (h : Inv base S hj r)
    (hpos : ∀ n ∈ counts r ops, 0 ≤ n)
    (hsum : S + (counts r ops).sum < 2 ^ 63) :
    Inv base (S + (counts r ops).sum) (hj || decide (Op.Hijack ∈ ops)) (run r ops) := by
  induction ops generalizing r S hj with
  | nil => simpa [run, counts] using h
  | cons op ops ih =>
    simp only [counts, List.mem_append, List.sum_append] at hpos hsum
    have hrest : 0 ≤ (counts (op.apply r) ops).sum :=
      counts_sum_nonneg _ _ (fun n hn => hpos n (Or.inr hn))
    have hstep := Inv_step base S hj r op h (by
      intro n hn
      have h0 : 0 ≤ n := hpos n (Or.inl (by simp [hn]))
      refine ⟨h0, ?_⟩
      simp [hn] at hsum
      omega)
    have hsum2 : S + (op.count r).getD 0 + (counts (op.apply r) ops).sum < 2 ^ 63 := by
      cases hcn : op.count r with
      | none => simp [hcn] at hsum ⊢; omega
      | some n => simp [hcn] at hsum ⊢; omega
    have := ih _ _ _ hstep (fun n hn => hpos n (Or.inr hn)) hsum2
    have e1 : S + ((op.count r).toList ++ counts (op.apply r) ops).sum
        = S + (op.count r).getD 0 + (counts (op.apply r) ops).sum := by
      cases hcn : op.count r <;> simp [List.sum_append]; ring
    have e2 : (hj || decide (Op.Hijack ∈ op :: ops))
        = ((hj || decide (op = Op.Hijack)) || decide (Op.Hijack ∈ ops)) := by
      by_cases ho : op = Op.Hijack
      · simp [ho]
      · have : ¬ Op.Hijack = op := fun e => ho e.symm
        simp [ho, this]
    simp only [counts, run]
    rw [e1, e2]
    exact this

theorem sinceReset_of_calls (d : Delegate) (r : responseWriter) (new : List Call)
    (h : r.ResponseWriter.calls = d.calls ++ new) : sinceReset d r = new := by
  simp [sinceReset, h]

/-! Section: Claims -/

/-- C1 (as stated, refuted): after a request has written "hello", `Written()` is
true and `Status()` is 200, yet `WriteHeader(404)` makes `Status()` 404. -/
theorem C1_status_not_frozen :
    afterHello.Written = true ∧ afterHello.Status = 200 ∧
    (afterHello.WriteHeader 404).Status = 404 := by
  decide

/-- C1 (amended): in every state where `Written()` is true, `WriteHeader(code)`
sets `Status()` to `code` when `code > 0` and leaves it unchanged when
`code <= 0`; the size and the wrapped writer, hence the status already sent to
it, are unchanged. -/
theorem C1_WriteHeader_after_commit (r : responseWriter) (code : Int)
    (h : r.Written = true) :
    (r.WriteHeader code).Status = (if code > 0 then code else r.Status) ∧
    (r.WriteHeader code).Size = r.Size ∧
    (r.WriteHeader code).Written = true ∧
    (r.WriteHeader code).ResponseWriter = r.ResponseWriter := by
  unfold responseWriter.WriteHeader responseWriter.Status responseWriter.Size
  by_cases hc : code > 0
  · by_cases he : r.status = code
    · simp [hc, he, h]
    · simp [hc, he, responseWriter.Written]
      simpa [responseWriter.Written] using h
  · simp [hc, h]

/-- Witness for C1 (amended): the adapter after writing "hello", with code 404. -/
theorem C1_WriteHeader_after_commit_witness :
    afterHello.Written = true ∧
    ((afterHello.WriteHeader 404).Status = (if (404 : Int) > 0 then 404 else afterHello.Status) ∧
    (afterHello.WriteHeader 404).Size = afterHello.Size ∧
    (afterHello.WriteHeader 404).Written = true ∧
    (afterHello.WriteHeader 404).ResponseWriter = afterHello.ResponseWriter) :=
  ⟨by decide, C1_WriteHeader_after_commit afterHello 404 (by decide)⟩

/-- C2: after any list of `WriteHeader` calls on a freshly reset adapter, the
first commit, whether made by `WriteHeaderNow`, `Write`, `WriteString` or
`Flush`, passes to the wrapped writer the last code of the list that is `> 0`,
or 200 when there is none, before the payload or the flush is forwarded. -/
theorem C2_commit_sends_last_valid_code (r0 : responseWriter) (d : Delegate)
    (codes : List Int) (data : List UInt8) (s : String) :
    ((codes.foldl responseWriter.WriteHeader (r0.reset d)).WriteHeaderNow).ResponseWriter.calls
      = d.calls ++ [Call.WriteHeader (lastValidCode codes)] ∧
    ((codes.foldl responseWriter.WriteHeader (r0.reset d)).Write data).2.ResponseWriter.calls
      = d.calls ++ [Call.WriteHeader (lastValidCode codes), Call.Write data] ∧
    ((codes.foldl responseWriter.WriteHeader (r0.reset d)).WriteString s).2.ResponseWriter.calls
      = d.calls ++ [Call.WriteHeader (lastValidCode codes),
          if d.isStringWriter then Call.WriteString s else Call.Write (bytesOf s)] ∧
    ((codes.foldl responseWriter.WriteHeader (r0.reset d)).Flush).2.ResponseWriter.calls
      = d.calls ++ Call.WriteHeader (lastValidCode codes) ::
          (if d.isFlusher then [Call.Flush] else []) := by
  obtain ⟨hd, hs, hst⟩ := foldl_WriteHeader codes (r0.reset d)
  have hst2 : (codes.foldl responseWriter.WriteHeader (r0.reset d)).status
      = lastValidCode codes := by
    rw [hst]; rfl
  have hd2 : (codes.foldl responseWriter.WriteHeader (r0.reset d)).ResponseWriter = d := hd
  have hs2 : (codes.foldl responseWriter.WriteHeader (r0.reset d)).size = noWritten := hs
  generalize codes.foldl responseWriter.WriteHeader (r0.reset d) = R at hst2 hd2 hs2
  have hnow : R.WriteHeaderNow
      = { R with size := 0, ResponseWriter := d.WriteHeader (lastValidCode codes) } := by
    unfold responseWriter.WriteHeaderNow
    simp [responseWriter.Written, hd2, hst2, hs2]
  refine ⟨?_, ?_, ?_, ?_⟩
  · rw [hnow]; simp [Delegate.WriteHeader]
  · simp [responseWriter.Write, hnow, Delegate.Write, Delegate.WriteHeader]
  · rw [WriteString_calls, hnow, hd2]
    simp [Delegate.WriteHeader]
  · simp only [responseWriter.Flush, hnow]
    cases hf : d.isFlusher <;> simp [Delegate.WriteHeader, Delegate.Flush, hf]

/-- C3 (as stated, refuted): on a freshly reset adapter whose wrapped writer
reports `-1` bytes for the first write and `3` bytes for the second, `Size()` is
`3` afterwards while the reported counts add up to `2`. -/
theorem C3_size_not_sum :
    (writeAll (fresh faultyDelegate) [BodyWrite.Write hello, BodyWrite.Write [1, 2, 3]]).1
      = [(-1, some "write failed"), (3, none)] ∧
    (writeAll (fresh faultyDelegate) [BodyWrite.Write hello, BodyWrite.Write [1, 2, 3]]).2.Size
      = 3 ∧
    (((writeAll (fresh faultyDelegate)
        [BodyWrite.Write hello, BodyWrite.Write [1, 2, 3]]).1.map Prod.fst).sum) = 2 := by
  decide

/-- C3 (amended): for every non-empty sequence of `Write`/`WriteString` calls on
a freshly reset adapter in which every reported count is `>= 0` and the counts
add up to less than `2^63`, `Size()` afterwards equals the sum of the reported
counts, whether or not errors were returned with them. -/
theorem C3_size_is_sum (r0 : responseWriter) (d : Delegate) (ws : List BodyWrite)
    (hne : ws ≠ [])
    (hpos : ∀ p ∈ (writeAll (r0.reset d) ws).1, 0 ≤ p.1)
    (hsum : ((writeAll (r0.reset d) ws).1.map Prod.fst).sum < 2 ^ 63) :
    (writeAll (r0.reset d) ws).2.Size = ((writeAll (r0.reset d) ws).1.map Prod.fst).sum := by
  cases ws with
  | nil => exact absurd rfl hne
  | cons w ws =>
    simp only [writeAll, List.map_cons, List.sum_cons, List.mem_cons, forall_eq_or_imp,
      responseWriter.Size] at hpos hsum ⊢
    obtain ⟨hn, hrest⟩ := hpos
    have hrestsum : 0 ≤ ((writeAll (w.apply (r0.reset d)).2 ws).1.map Prod.fst).sum := by
      apply List.sum_nonneg
      intro x hx
      obtain ⟨p, hp, rfl⟩ := List.mem_map.1 hx
      exact hrest p hp
    have hnow : (r0.reset d).WriteHeaderNow.size = 0 := by
      rw [WriteHeaderNow_size]; simp [responseWriter.reset]
    have hsz : (w.apply (r0.reset d)).2.size = (w.apply (r0.reset d)).1.1 := by
      rw [apply_size, hnow, zero_add]
      apply wrapInt_of_inIntRange
      unfold inIntRange intBits
      norm_num
      constructor <;> omega
    rw [writeAll_size_committed ws _ (by rw [hsz]; exact hn) hrest (by rw [hsz]; omega), hsz]

/-- Witness for C3 (amended): 5 bytes then 3 bytes, both written in full, give
`Size() = 8`. -/
theorem C3_size_is_sum_witness :
    (writeAll ((fresh plainDelegate).reset fullDelegate)
        [BodyWrite.Write hello, BodyWrite.WriteString "abc"]).1 = [(5, none), (3, none)] ∧
    (writeAll ((fresh plainDelegate).reset fullDelegate)
        [BodyWrite.Write hello, BodyWrite.WriteString "abc"]).2.Size = 8 := by
  refine ⟨by decide, ?_⟩
  have h := C3_size_is_sum (fresh plainDelegate) fullDelegate
    [BodyWrite.Write hello, BodyWrite.WriteString "abc"] (by decide) (by decide) (by decide)
  rw [h]
  decide

/-- C4: `WriteHeaderNow` is idempotent: in every state a second call changes
neither the adapter nor the wrapped writer, and on a freshly reset adapter the
wrapped writer receives exactly one call, `WriteHeader(200)`. -/
theorem C4_WriteHeaderNow_idempotent (r r0 : responseWriter) (d : Delegate) :
    r.WriteHeaderNow.WriteHeaderNow = r.WriteHeaderNow ∧
    (r0.reset d).WriteHeaderNow.WriteHeaderNow.ResponseWriter.calls
      = d.calls ++ [Call.WriteHeader 200] := by
  refine ⟨WriteHeaderNow_of_Written _ (WriteHeaderNow_Written r), ?_⟩
  rw [WriteHeaderNow_of_Written _ (WriteHeaderNow_Written _)]
  simp [responseWriter.WriteHeaderNow, responseWriter.Written, responseWriter.reset,
    Delegate.WriteHeader, defaultStatus]

/-- C5: in every state where `Written()` is false, after `Hijack()`, whether it
returns or panics, `Size()` is 0 and `Written()` is true. -/
theorem C5_Hijack_unwritten (r : responseWriter) (h : r.Written = false) :
    r.Hijack.2.Size = 0 ∧ r.Hijack.2.Written = true := by
  have hs : r.size = -1 := by
    simpa [responseWriter.Written, noWritten] using h
  unfold responseWriter.Hijack
  cases hh : r.ResponseWriter.isHijacker <;>
    simp [hs, hh, responseWriter.Size, responseWriter.Written, noWritten]

/-- Witness for C5: a freshly reset adapter. -/
theorem C5_Hijack_unwritten_witness :
    (fresh fullDelegate).Written = false ∧
    ((fresh fullDelegate).Hijack.2.Size = 0 ∧ (fresh fullDelegate).Hijack.2.Written = true) :=
  ⟨by decide, C5_Hijack_unwritten (fresh fullDelegate) (by decide)⟩

/-- C6: after `reset(writer)`, whatever the previous state, `Written()` is false
and `Size()` is the sentinel `-1`. -/
theorem C6_reset_unwritten (r : responseWriter) (writer : Delegate) :
    (r.reset writer).Written = false ∧ (r.reset writer).Size = -1 := by
  simp [responseWriter.reset, responseWriter.Written, responseWriter.Size, noWritten]

/-- C7: after `reset(writer)`, whatever status was recorded before, `Status()`
is 200. -/
theorem C7_reset_status (r : responseWriter) (writer : Delegate) :
    (r.reset writer).Status = 200 := by
  simp [responseWriter.reset, responseWriter.Status, defaultStatus]

/-- C8: `Write(data)` returns exactly the `(n, err)` pair with which the wrapped
writer answers `Write(data)`, the writer having received a `WriteHeader` with
the current status first when the headers were not committed. -/
theorem C8_Write_returns_delegate_reply (r : responseWriter) (data : List UInt8) :
    (r.Write data).1 = (r.WriteHeaderNow.ResponseWriter.Write data).1 ∧
    (r.Write data).1 = r.ResponseWriter.onWrite
      (if r.Written then r.ResponseWriter.calls
        else r.ResponseWriter.calls ++ [Call.WriteHeader r.Status]) data := by
  refine ⟨rfl, ?_⟩
  unfold responseWriter.Write responseWriter.WriteHeaderNow
  cases h : r.Written <;>
    simp [Delegate.Write, Delegate.WriteHeader, responseWriter.Status]

/-- C9: `Hijack`, `Flush` and `CloseNotify` each panic exactly when the wrapped
writer lacks the corresponding interface; otherwise the call is forwarded to
the wrapped writer and its result is returned unchanged. -/
theorem C9_capabilities (r : responseWriter) :
    (panicked r.Hijack.1 = !r.ResponseWriter.isHijacker ∧
      r.Hijack.1 = (if r.ResponseWriter.isHijacker
        then Except.ok (r.ResponseWriter.onHijack r.ResponseWriter.calls)
        else Except.error Panic.notHijacker) ∧
      r.Hijack.2.ResponseWriter.calls = r.ResponseWriter.calls ++
        (if r.ResponseWriter.isHijacker then [Call.Hijack] else [])) ∧
    (panicked r.Flush.1 = !r.ResponseWriter.isFlusher ∧
      r.Flush.1 = (if r.ResponseWriter.isFlusher
        then Except.ok () else Except.error Panic.notFlusher) ∧
      r.Flush.2.ResponseWriter.calls = r.WriteHeaderNow.ResponseWriter.calls ++
        (if r.ResponseWriter.isFlusher then [Call.Flush] else [])) ∧
    (panicked r.CloseNotify.1 = !r.ResponseWriter.isCloseNotifier ∧
      r.CloseNotify.1 = (if r.ResponseWriter.isCloseNotifier
        then Except.ok (r.ResponseWriter.onCloseNotify r.ResponseWriter.calls)
        else Except.error Panic.notCloseNotifier) ∧
      r.CloseNotify.2.ResponseWriter.calls = r.ResponseWriter.calls ++
        (if r.ResponseWriter.isCloseNotifier then [Call.CloseNotify] else [])) := by
  refine ⟨?_, ?_, ?_⟩
  · unfold responseWriter.Hijack
    by_cases hs : r.size < 0 <;> cases hh : r.ResponseWriter.isHijacker <;>
      simp [hs, hh, panicked, Delegate.Hijack]
  · have hf : r.WriteHeaderNow.ResponseWriter.isFlusher = r.ResponseWriter.isFlusher := by
      unfold responseWriter.WriteHeaderNow
      cases r.Written <;> simp [Delegate.WriteHeader]
    unfold responseWriter.Flush
    cases hh : r.ResponseWriter.isFlusher <;>
      simp [hf, hh, panicked, Delegate.Flush]
  · unfold responseWriter.CloseNotify
    cases hh : r.ResponseWriter.isCloseNotifier <;>
      simp [hh, panicked, Delegate.CloseNotify]

/-- C10: in every state where `Written()` is false, after `WriteHeader(code)`
`Status()` is `code` when `code > 0` and is unchanged when `code <= 0`; the
headers stay uncommitted. -/
theorem C10_WriteHeader_before_commit (r : responseWriter) (code : Int)
    (h : r.Written = false) :
    (code > 0 → (r.WriteHeader code).Status = code) ∧
    (code ≤ 0 → (r.WriteHeader code).Status = r.Status) ∧
    (r.WriteHeader code).Written = false := by
  unfold responseWriter.WriteHeader responseWriter.Status
  refine ⟨?_, ?_, ?_⟩
  · intro hc
    by_cases he : r.status = code
    · simp [he]
    · simp [hc, he]
  · intro hc
    have : ¬ code > 0 := by omega
    simp [this]
  · split
    · simpa [responseWriter.Written] using h
    · exact h

/-- Witness for C10: a freshly reset adapter with codes 404 and -3. -/
theorem C10_WriteHeader_before_commit_witness :
    (fresh fullDelegate).Written = false ∧
    ((fresh fullDelegate).WriteHeader 404).Status = 404 ∧
    ((fresh fullDelegate).WriteHeader (-3)).Status = (fresh fullDelegate).Status ∧
    ((fresh fullDelegate).WriteHeader 404).Written = false :=
  ⟨by decide,
   (C10_WriteHeader_before_commit (fresh fullDelegate) 404 (by decide)).1 (by decide),
   (C10_WriteHeader_before_commit (fresh fullDelegate) (-3) (by decide)).2.1 (by decide),
   (C10_WriteHeader_before_commit (fresh fullDelegate) 404 (by decide)).2.2⟩

/-- C11 (as stated, refuted): after a reset and one `Hijack`, `Size()` is 0 and
`Written()` is true although the wrapped writer has received no `WriteHeader`
call since the reset. -/
theorem C11_written_without_commit :
    (run (fresh fullDelegate) [Op.Hijack]).Size = 0 ∧
    (run (fresh fullDelegate) [Op.Hijack]).Written = true ∧
    sinceReset fullDelegate (run (fresh fullDelegate) [Op.Hijack]) = [Call.Hijack] ∧
    headerCalls (sinceReset fullDelegate (run (fresh fullDelegate) [Op.Hijack])) = 0 := by
  decide

/-- C11 (amended): in every state reached from a reset by a sequence of adapter
operations during which every byte count reported by the wrapped writer is
`>= 0` and the counts add up to less than `2^63`, `Size()` is `-1`, that is
`Written()` is false, exactly when the wrapped writer has received no
`WriteHeader` call since the reset and `Hijack` has not been called since the
reset. -/
theorem C11_sentinel_iff_untouched (r0 : responseWriter) (d : Delegate) (ops : List Op)
    (hpos : ∀ n ∈ counts (r0.reset d) ops, 0 ≤ n)
    (hsum : (counts (r0.reset d) ops).sum < 2 ^ 63) :
    ((run (r0.reset d) ops).Size = -1 ↔
      (headerCalls (sinceReset d (run (r0.reset d) ops)) = 0 ∧ Op.Hijack ∉ ops)) ∧
    ((run (r0.reset d) ops).Written = false ↔ (run (r0.reset d) ops).Size = -1) := by
  have hinv := Inv_run d.calls ops 0 false _ (Inv_reset r0 d) hpos (by simpa using hsum)
  obtain ⟨new, hcalls, hd⟩ := hinv
  rw [sinceReset_of_calls d _ new hcalls]
  refine ⟨?_, by simp [responseWriter.Written, responseWriter.Size, noWritten]⟩
  unfold responseWriter.Size
  rcases hd with ⟨h1, h2, _, h4⟩ | ⟨h1, _, _, h4⟩
  · simp only [Bool.false_or, decide_eq_false_iff_not] at h4
    exact ⟨fun _ => ⟨h2, h4⟩, fun _ => h1⟩
  · constructor
    · intro h; omega
    · rintro ⟨hk, hh⟩
      rcases h4 with h4 | h4
      · omega
      · simp [hh] at h4

/-- Witness for C11 (amended): a status, a body write and a flush after a reset. -/
theorem C11_sentinel_iff_untouched_witness :
    (run ((fresh plainDelegate).reset fullDelegate)
        [Op.WriteHeader 404, Op.Write hello, Op.Flush]).Size = -1 ↔
      (headerCalls (sinceReset fullDelegate (run ((fresh plainDelegate).reset fullDelegate)
        [Op.WriteHeader 404, Op.Write hello, Op.Flush])) = 0 ∧
       Op.Hijack ∉ [Op.WriteHeader 404, Op.Write hello, Op.Flush]) :=
  (C11_sentinel_iff_untouched (fresh plainDelegate) fullDelegate
    [Op.WriteHeader 404, Op.Write hello, Op.Flush] (by decide) (by decide)).1

/-- C12: when the wrapped writer, at the moment of the call, answers
`io.WriteString` for `s` with the same `(n, err)` as `Write` for the bytes of
`s`, then `WriteString(s)` and `Write([]byte(s))` return the same pair, leave the
same size and status, and make the same `WriteHeader` call, or none, before the
single payload call; the wrapped writer receives the same `WriteHeader` calls in
both. -/
theorem C12_WriteString_same_as_Write (r : responseWriter) (s : String)
    (h : (r.WriteHeaderNow.ResponseWriter.WriteString s).1
      = (r.WriteHeaderNow.ResponseWriter.Write (bytesOf s)).1) :
    (r.WriteString s).1 = (r.Write (bytesOf s)).1 ∧
    (r.WriteString s).2.Size = (r.Write (bytesOf s)).2.Size ∧
    (r.WriteString s).2.Status = (r.Write (bytesOf s)).2.Status ∧
    (r.WriteString s).2.ResponseWriter.calls =
      r.ResponseWriter.calls ++
        (if r.Written then [] else [Call.WriteHeader r.Status]) ++
        [if r.ResponseWriter.isStringWriter then Call.WriteString s
          else Call.Write (bytesOf s)] ∧
    (r.Write (bytesOf s)).2.ResponseWriter.calls =
      r.ResponseWriter.calls ++
        (if r.Written then [] else [Call.WriteHeader r.Status]) ++ [Call.Write (bytesOf s)] ∧
    (r.WriteString s).2.ResponseWriter.calls.filter Call.isWriteHeader =
      (r.Write (bytesOf s)).2.ResponseWriter.calls.filter Call.isWriteHeader := by
  have hpre : r.WriteHeaderNow.ResponseWriter.calls = r.ResponseWriter.calls ++
      (if r.Written then [] else [Call.WriteHeader r.Status]) := by
    rw [WriteHeaderNow_calls]
    by_cases hs : r.size = noWritten <;>
      simp [hs, responseWriter.Written, responseWriter.Status]
  have h1 : (r.WriteString s).1 = (r.Write (bytesOf s)).1 := h
  refine ⟨h1, ?_, rfl, ?_, ?_, ?_⟩
  · show (r.WriteString s).2.size = (r.Write (bytesOf s)).2.size
    rw [WriteString_size, Write_size, h1]
  · rw [WriteString_calls, hpre]
  · rw [Write_calls, hpre]
  · rw [WriteString_calls, Write_calls]
    cases r.ResponseWriter.isStringWriter <;> simp [List.filter_append, Call.isWriteHeader]

/-- Witness for C12: the string "abc" on a freshly reset adapter, once with a
wrapped writer that implements `io.StringWriter` and once with one that does
not and so receives `Write([]byte("abc"))`. -/
theorem C12_WriteString_same_as_Write_witness :
    ((fresh fullDelegate).WriteString "abc").1 = ((fresh fullDelegate).Write (bytesOf "abc")).1 ∧
    ((fresh fullDelegate).WriteString "abc").2.ResponseWriter.calls
      = [Call.WriteHeader 200, Call.WriteString "abc"] ∧
    ((fresh plainDelegate).WriteString "abc").2.ResponseWriter.calls
      = [Call.WriteHeader 200, Call.Write [97, 98, 99]] :=
  ⟨(C12_WriteString_same_as_Write (fresh fullDelegate) "abc" (by decide)).1,
   ((C12_WriteString_same_as_Write (fresh fullDelegate) "abc" (by decide)).2.2.2.1).trans
     (by decide),
   ((C12_WriteString_same_as_Write (fresh plainDelegate) "abc" (by decide)).2.2.2.1).trans
     (by decide)⟩

/-- C13 (as stated, refuted): on a freshly reset adapter whose wrapped writer
reports `-1` bytes, `Write` commits the headers and forwards the payload, yet
`Written()` is false afterwards. -/
theorem C13_not_written_after_Write :
    (fresh faultyDelegate).Written = false ∧
    ((fresh faultyDelegate).Write hello).1 = (-1, some "write failed") ∧
    ((fresh faultyDelegate).Write hello).2.ResponseWriter.calls
      = [Call.WriteHeader 200, Call.Write hello] ∧
    ((fresh faultyDelegate).Write hello).2.Written = false := by
  decide

/-- C13 (amended): when `Written()` is false, `Write`, `WriteString` and `Flush`
first call `WriteHeader(Status())` on the wrapped writer and only then forward
the payload, or the flush when the writer is a flusher; when `Written()` is true
they forward without a `WriteHeader` call. `Written()` is true after `Flush`;
after `Write` or `WriteString` it is true provided `Size()` was `>= -1` before
and the reported byte count is `>= 0`, both being Go `int` values. -/
theorem C13_commit_then_forward (r : responseWriter) (data : List UInt8) (s : String) :
    (r.Write data).2.ResponseWriter.calls = r.ResponseWriter.calls ++
      (if r.Written then [] else [Call.WriteHeader r.Status]) ++ [Call.Write data] ∧
    (r.WriteString s).2.ResponseWriter.calls = r.ResponseWriter.calls ++
      (if r.Written then [] else [Call.WriteHeader r.Status]) ++
      [if r.ResponseWriter.isStringWriter then Call.WriteString s
        else Call.Write (bytesOf s)] ∧
    r.Flush.2.ResponseWriter.calls = r.ResponseWriter.calls ++
      (if r.Written then [] else [Call.WriteHeader r.Status]) ++
      (if r.ResponseWriter.isFlusher then [Call.Flush] else []) ∧
    r.Flush.2.Written = true ∧
    (inIntRange r.Size → inIntRange (r.Write data).1.1 →
      -1 ≤ r.Size → 0 ≤ (r.Write data).1.1 → (r.Write data).2.Written = true) ∧
    (inIntRange r.Size → inIntRange (r.WriteString s).1.1 →
      -1 ≤ r.Size → 0 ≤ (r.WriteString s).1.1 → (r.WriteString s).2.Written = true) := by
  have hpre : r.WriteHeaderNow.ResponseWriter.calls = r.ResponseWriter.calls ++
      (if r.Written then [] else [Call.WriteHeader r.Status]) := by
    rw [WriteHeaderNow_calls]
    by_cases hs : r.size = noWritten <;>
      simp [hs, responseWriter.Written, responseWriter.Status]
  have hbase : inIntRange r.Size → -1 ≤ r.Size →
      0 ≤ r.WriteHeaderNow.size ∧ r.WriteHeaderNow.size < 2 ^ 63 := by
    intro hr h
    rw [WriteHeaderNow_size]
    unfold inIntRange intBits at hr
    simp only [responseWriter.Size, noWritten] at hr h ⊢
    norm_num at hr
    by_cases hs : r.size = -1
    · simp [hs]
    · simp only [hs, if_false]; omega
  refine ⟨by rw [Write_calls, hpre], by rw [WriteString_calls, hpre],
    by rw [Flush_calls, hpre], ?_, ?_, ?_⟩
  · have := WriteHeaderNow_Written r
    simp only [responseWriter.Written, Flush_size] at this ⊢
    exact this
  · intro hr hn h0 hn0
    obtain ⟨hb0, hb1⟩ := hbase hr h0
    have hw : (r.Write data).2.size ≠ -1 :=
      wrapInt_ne_sentinel _ _ hb0 hb1 hn0 hn.2 (Write_size r data)
    simpa [responseWriter.Written, noWritten] using hw
  · intro hr hn h0 hn0
    obtain ⟨hb0, hb1⟩ := hbase hr h0
    have hw : (r.WriteString s).2.size ≠ -1 :=
      wrapInt_ne_sentinel _ _ hb0 hb1 hn0 hn.2 (WriteString_size r s)
    simpa [responseWriter.Written, noWritten] using hw

/-- Witness for C13 (amended): writing "hello" and "abc" on a freshly reset
adapter whose wrapped writer accepts every payload in full. -/
theorem C13_commit_then_forward_witness :
    ((fresh fullDelegate).Write hello).2.Written = true ∧
    ((fresh fullDelegate).WriteString "abc").2.Written = true :=
  ⟨(C13_commit_then_forward (fresh fullDelegate) hello "abc").2.2.2.2.1
      (by decide) (by decide) (by decide) (by decide),
   (C13_commit_then_forward (fresh fullDelegate) hello "abc").2.2.2.2.2
      (by decide) (by decide) (by decide) (by decide)⟩

/-- C14 (as stated, refuted): after a reset, three body writes for which the
wrapped writer reports `2^63 - 1`, `2^63 - 1` and `1` bytes, all `>= 0`, bring
the size back to `-1` by `int` overflow, and the following `WriteHeaderNow`
sends a second `WriteHeader` to the wrapped writer. -/
theorem C14_second_header_call :
    counts (fresh hugeDelegate) [Op.Write hello, Op.Write hello, Op.Write hello, Op.WriteHeaderNow]
      = [9223372036854775807, 9223372036854775807, 1] ∧
    (run (fresh hugeDelegate) [Op.Write hello, Op.Write hello, Op.Write hello]).Size = -1 ∧
    (run (fresh hugeDelegate)
      [Op.Write hello, Op.Write hello, Op.Write hello, Op.WriteHeaderNow]).ResponseWriter.calls
      = [Call.WriteHeader 200, Call.Write hello, Call.Write hello, Call.Write hello,
         Call.WriteHeader 200] := by
  decide

/-- C14 (amended): for every sequence of adapter operations after a reset
during which every byte count reported by the wrapped writer is `>= 0` and the
counts add up to less than `2^63`, the wrapped writer receives at most one
`WriteHeader` call. -/
theorem C14_at_most_one_header_call (r0 : responseWriter) (d : Delegate) (ops : List Op)
    (hpos : ∀ n ∈ counts (r0.reset d) ops, 0 ≤ n)
    (hsum : (counts (r0.reset d) ops).sum < 2 ^ 63) :
    headerCalls (sinceReset d (run (r0.reset d) ops)) ≤ 1 := by
  have hinv := Inv_run d.calls ops 0 false _ (Inv_reset r0 d) hpos (by simpa using hsum)
  obtain ⟨new, hcalls, hd⟩ := hinv
  rw [sinceReset_of_calls d _ new hcalls]
  rcases hd with ⟨_, h2, _, _⟩ | ⟨_, _, h3, _⟩
  · omega
  · exact h3

/-- Witness for C14 (amended): two commits, two body writes, a flush and a
hijack after a reset give one `WriteHeader` call. -/
theorem C14_at_most_one_header_call_witness :
    headerCalls (sinceReset fullDelegate (run ((fresh plainDelegate).reset fullDelegate)
      [Op.WriteHeaderNow, Op.Write hello, Op.WriteString "abc", Op.Flush, Op.Hijack,
       Op.WriteHeaderNow])) ≤ 1 :=
  C14_at_most_one_header_call (fresh plainDelegate) fullDelegate
    [Op.WriteHeaderNow, Op.Write hello, Op.WriteString "abc", Op.Flush, Op.Hijack,
     Op.WriteHeaderNow] (by decide) (by decide)

/-- C15 (as stated, refuted): after a reset and one body write reporting
`2^63 - 1` bytes, `Written()` is true and `Size()` is `2^63 - 1`; a second body
write reporting `2^63 - 1` bytes, both counts being `>= 0`, leaves `Size()` at
`-2`, which is below `-1` and below the size before. -/
theorem C15_size_decreases :
    counts (fresh hugeDelegate) [Op.Write hello, Op.Write hello]
      = [9223372036854775807, 9223372036854775807] ∧
    (run (fresh hugeDelegate) [Op.Write hello]).Written = true ∧
    (run (fresh hugeDelegate) [Op.Write hello]).Size = 9223372036854775807 ∧
    (run (fresh hugeDelegate) [Op.Write hello, Op.Write hello]).Size = -2 := by
  decide

/-- C15 (amended): for every sequence of adapter operations after a reset
during which every byte count reported by the wrapped writer is `>= 0` and the
counts add up to less than `2^63`, `Size()` is `>= -1` before and after the last
operation, and when `Written()` is true before the last operation it is true
after it and `Size()` has not decreased. -/
theorem C15_written_monotone (r0 : responseWriter) (d : Delegate) (ops : List Op) (op : Op)
    (hpos : ∀ n ∈ counts (r0.reset d) (ops ++ [op]), 0 ≤ n)
    (hsum : (counts (r0.reset d) (ops ++ [op])).sum < 2 ^ 63) :
    -1 ≤ (run (r0.reset d) ops).Size ∧
    -1 ≤ (run (r0.reset d) (ops ++ [op])).Size ∧
    ((run (r0.reset d) ops).Written = true →
      (run (r0.reset d) (ops ++ [op])).Written = true ∧
      (run (r0.reset d) ops).Size ≤ (run (r0.reset d) (ops ++ [op])).Size) := by
  rw [counts_append] at hpos hsum
  simp only [List.mem_append, List.sum_append] at hpos hsum
  have hlast : 0 ≤ (counts (run (r0.reset d) ops) [op]).sum :=
    counts_sum_nonneg _ _ (fun n hn => hpos n (Or.inr hn))
  have hpre := Inv_run d.calls ops 0 false _ (Inv_reset r0 d)
    (fun n hn => hpos n (Or.inl hn)) (by simp only [zero_add]; omega)
  obtain ⟨_, _, hb⟩ := hpre
  have hfin : run (r0.reset d) (ops ++ [op]) = op.apply (run (r0.reset d) ops) := by
    rw [run_append]; rfl
  obtain ⟨_, _, _, hsz⟩ := Op.apply_effect (run (r0.reset d) ops) op
  rw [hfin]
  have hsize : -1 ≤ (run (r0.reset d) ops).size ∧
      -1 ≤ (op.apply (run (r0.reset d) ops)).size ∧
      ((run (r0.reset d) ops).size ≠ -1 →
        (op.apply (run (r0.reset d) ops)).size ≠ -1 ∧
        (run (r0.reset d) ops).size ≤ (op.apply (run (r0.reset d) ops)).size) := by
    rw [hsz]
    generalize hS : (counts (r0.reset d) ops).sum = S at hsum hb
    generalize run (r0.reset d) ops = r at hpos hsum hlast hb
    simp only [zero_add] at hb
    cases op with
    | WriteHeader code => rcases hb with ⟨h1, _⟩ | ⟨h1, _⟩ <;> simp <;> omega
    | CloseNotify => rcases hb with ⟨h1, _⟩ | ⟨h1, _⟩ <;> simp <;> omega
    | Hijack =>
      rcases hb with ⟨h1, _⟩ | ⟨h1, _⟩
      · simp [h1]
      · have : ¬ r.size < 0 := by omega
        simp [this]; omega
    | WriteHeaderNow =>
      rcases hb with ⟨h1, _⟩ | ⟨h1, _⟩
      · simp [h1]
      · have : r.size ≠ -1 := by omega
        simp [this]; omega
    | Flush =>
      rcases hb with ⟨h1, _⟩ | ⟨h1, _⟩
      · simp [h1]
      · have : r.size ≠ -1 := by omega
        simp [this]; omega
    | Write data =>
      have hn : 0 ≤ (r.Write data).1.1 := hpos _ (Or.inr (by simp [counts, Op.count]))
      simp only [counts, Op.count, Option.toList, List.append_nil, List.sum_cons,
        List.sum_nil, add_zero] at hsum
      rcases hb with ⟨h1, _, h3, _⟩ | ⟨h1, h2, _⟩
      · simp only [h1, if_true, zero_add]
        rw [wrapInt_of_nonneg _ hn (by omega)]
        simp; omega
      · have hne : r.size ≠ -1 := by omega
        simp only [hne, if_false]
        rw [wrapInt_of_nonneg _ (by omega) (by omega)]
        refine ⟨by omega, by omega, fun _ => ⟨by omega, by omega⟩⟩
    | WriteString s =>
      have hn : 0 ≤ (r.WriteString s).1.1 := hpos _ (Or.inr (by simp [counts, Op.count]))
      simp only [counts, Op.count, Option.toList, List.append_nil, List.sum_cons,
        List.sum_nil, add_zero] at hsum
      rcases hb with ⟨h1, _, h3, _⟩ | ⟨h1, h2, _⟩
      · simp only [h1, if_true, zero_add]
        rw [wrapInt_of_nonneg _ hn (by omega)]
        simp; omega
      · have hne : r.size ≠ -1 := by omega
        simp only [hne, if_false]
        rw [wrapInt_of_nonneg _ (by omega) (by omega)]
        refine ⟨by omega, by omega, fun _ => ⟨by omega, by omega⟩⟩
  simpa [responseWriter.Size, responseWriter.Written, noWritten] using hsize

/-- Witness for C15 (amended): a body write of 3 bytes after a commit and a body
write of 5 bytes. -/
theorem C15_written_monotone_witness :
    (run ((fresh plainDelegate).reset fullDelegate)
        [Op.WriteHeaderNow, Op.Write hello]).Written = true ∧
    (run ((fresh plainDelegate).reset fullDelegate)
        ([Op.WriteHeaderNow, Op.Write hello] ++ [Op.WriteString "abc"])).Written = true ∧
    (run ((fresh plainDelegate).reset fullDelegate) [Op.WriteHeaderNow, Op.Write hello]).Size ≤
      (run ((fresh plainDelegate).reset fullDelegate)
        ([Op.WriteHeaderNow, Op.Write hello] ++ [Op.WriteString "abc"])).Size :=
  ⟨by decide,
   (C15_written_monotone (fresh plainDelegate) fullDelegate [Op.WriteHeaderNow, Op.Write hello]
      (Op.WriteString "abc") (by decide) (by decide)).2.2 (by decide)⟩

/-- C16: in every state where `Written()` is false, a `Hijack` that panics
because the wrapped writer is no hijacker still leaves `Size() = 0` and
`Written() = true`, and a `Flush` that panics because the wrapped writer is no
flusher has already sent `WriteHeader(Status())` to it and set `Size() = 0`. -/
theorem C16_not_atomic_on_failure (r : responseWriter) (h : r.Written = false) :
    (r.ResponseWriter.isHijacker = false →
      panicked r.Hijack.1 = true ∧ r.Hijack.2.Size = 0 ∧ r.Hijack.2.Written = true) ∧
    (r.ResponseWriter.isFlusher = false →
      panicked r.Flush.1 = true ∧
      r.Flush.2.ResponseWriter.calls = r.ResponseWriter.calls ++ [Call.WriteHeader r.Status] ∧
      r.Flush.2.Size = 0 ∧ r.Flush.2.Written = true) := by
  have hs : r.size = -1 := by
    simpa [responseWriter.Written, noWritten] using h
  constructor
  · intro hh
    unfold responseWriter.Hijack
    simp [hs, hh, panicked, responseWriter.Size, responseWriter.Written, noWritten]
  · intro hf
    have hf2 := WriteHeaderNow_isFlusher r
    refine ⟨?_, ?_, ?_, ?_⟩
    · unfold responseWriter.Flush
      simp [hf2, hf, panicked]
    · rw [Flush_calls, WriteHeaderNow_calls]
      simp [hs, hf, noWritten, responseWriter.Status]
    · show r.Flush.2.size = 0
      rw [Flush_size, WriteHeaderNow_size]
      simp [hs, noWritten]
    · have := WriteHeaderNow_Written r
      simp only [responseWriter.Written, Flush_size] at this ⊢
      exact this

/-- Witness for C16: a freshly reset adapter whose wrapped writer has none of the
optional interfaces. -/
theorem C16_not_atomic_on_failure_witness :
    (panicked (fresh plainDelegate).Hijack.1 = true ∧ (fresh plainDelegate).Hijack.2.Size = 0 ∧
      (fresh plainDelegate).Hijack.2.Written = true) ∧
    (panicked (fresh plainDelegate).Flush.1 = true ∧
      (fresh plainDelegate).Flush.2.ResponseWriter.calls =
        (fresh plainDelegate).ResponseWriter.calls ++
          [Call.WriteHeader (fresh plainDelegate).Status] ∧
      (fresh plainDelegate).Flush.2.Size = 0 ∧ (fresh plainDelegate).Flush.2.Written = true) :=
  ⟨(C16_not_atomic_on_failure (fresh plainDelegate) (by decide)).1 (by decide),
   (C16_not_atomic_on_failure (fresh plainDelegate) (by decide)).2 (by decide)⟩

/-- C17: in every state and for every code, `WriteHeader(code)` leaves `Size()`
and `Written()` unchanged and leaves the wrapped writer as it was, so it
receives no call. -/
theorem C17_WriteHeader_only_records (r : responseWriter) (code : Int) :
    (r.WriteHeader code).Size = r.Size ∧
    (r.WriteHeader code).Written = r.Written ∧
    (r.WriteHeader code).ResponseWriter = r.ResponseWriter ∧
    (r.WriteHeader code).ResponseWriter.calls = r.ResponseWriter.calls := by
  obtain ⟨hs, hd⟩ := WriteHeader_frame r code
  exact ⟨hs, by simp [responseWriter.Written, hs], hd, by rw [hd]⟩

/-- C18: in every state, `Hijack` sends at most a `Hijack` call and no
`WriteHeader` call to the wrapped writer and leaves `Status()` unchanged, and in
every state with `Size() >= 0` it leaves `Size()` unchanged. -/
theorem C18_Hijack_frame (r : responseWriter) :
    r.Hijack.2.ResponseWriter.calls = r.ResponseWriter.calls ++
      (if r.ResponseWriter.isHijacker then [Call.Hijack] else []) ∧
    headerCalls r.Hijack.2.ResponseWriter.calls = headerCalls r.ResponseWriter.calls ∧
    r.Hijack.2.Status = r.Status ∧
    (0 ≤ r.Size → r.Hijack.2.Size = r.Size) := by
  refine ⟨Hijack_calls r, ?_, Hijack_status r, ?_⟩
  · rw [Hijack_calls, headerCalls_append]
    cases r.ResponseWriter.isHijacker <;> simp [headerCalls, Call.isWriteHeader]
  · intro h
    have : ¬ r.size < 0 := by
      simp only [responseWriter.Size] at h; omega
    show r.Hijack.2.size = r.size
    rw [Hijack_size]; simp [this]

/-- Witness for C18: a hijack after "hello" was written keeps `Size() = 5`. -/
theorem C18_Hijack_frame_witness :
    afterHello.Hijack.2.Size = afterHello.Size ∧ afterHello.Size = 5 :=
  ⟨(C18_Hijack_frame afterHello).2.2.2 (by decide), by decide⟩

end Gin
